import Mathlib

/-!
Shallow embedding of the hidden-lightning-network node core (src/src/main.rs).

The embedding covers:
* the routing-failure classification and `PaymentPathFailed` handling
  (`handle_ldk_events`, lines 249-293 of main.rs);
* the `PaymentReceived` upsert into the inbound-payments map (lines 181-218);
* the `PaymentFailed` removal from the pending-payments map (lines 294-318);
* the `FundingGenerationReady` build/fund/sign/hand-back sequence (lines 138-180),
  modelled as the trace of backend calls the handler issues;
* the startup replay of persisted channel-monitor updates (`start_ldk`,
  lines 481-514), where the per-channel update list is sorted by `update_id`
  and applied in order, aborting startup on the first application error.

Rust `HashMap`s keyed by a 32-byte payment hash are modelled as association
lists with `Nat` keys; the handler code only uses contains/insert/update/remove,
and a `HashMap` holds at most one entry per key, which the association-list
operations below respect. Opaque byte blobs (scripts, payloads, public keys,
transaction hexes) are modelled as `Nat` identifiers, since the handlers never
inspect their contents. A handler that can hit an unconditional `.unwrap()` or
a failed `assert_eq!` is modelled with an `Option` result (`none` standing for
the process aborting at that point).
-/

namespace HiddenLightning

/-! ### Payment bookkeeping data (main.rs lines 61-93) -/

inductive HTLCStatus where
  | Pending
  | Succeeded
  | Failed
deriving DecidableEq

/-- PaymentInfo from main.rs lines 86-91; `amt_msat` models
`MillisatAmount(Option<u64>)`. -/
structure PaymentInfo where
  preimage : Option Nat
  secret : Option Nat
  status : HTLCStatus
  amt_msat : Option Nat
deriving DecidableEq

abbrev PaymentHash := Nat

/-- Association-list model of `HashMap<PaymentHash, PaymentInfo>`. -/
abbrev PaymentMap := List (PaymentHash × PaymentInfo)

/-- Lookup of the entry stored under a key, mirroring `HashMap::get`. -/
def mapLookup : PaymentMap → PaymentHash → Option PaymentInfo
  | [], _ => none
  | (k, v) :: rest, h => if k = h then some v else mapLookup rest h

/-- Membership test mirroring `HashMap::contains_key`. -/
def containsKey : PaymentMap → PaymentHash → Bool
  | [], _ => false
  | (k, _) :: rest, h => if k = h then true else containsKey rest h

/-- Removal of a key's entry, mirroring `HashMap::remove` (a `HashMap` has at
most one entry per key, so filtering every matching key removes that entry). -/
def eraseKey : PaymentMap → PaymentHash → PaymentMap
  | [], _ => []
  | (k, v) :: rest, h =>
      if k = h then eraseKey rest h else (k, v) :: eraseKey rest h

/-- In-place update of the entry stored under a key, mirroring the
`Entry::Occupied` branch of the handler's upsert. -/
def updateExisting : PaymentMap → PaymentHash → (PaymentInfo → PaymentInfo) → PaymentMap
  | [], _, _ => []
  | (k, v) :: rest, h, f =>
      if k = h then (k, f v) :: updateExisting rest h f
      else (k, v) :: updateExisting rest h f

/-! ### PaymentReceived (main.rs lines 181-218) -/

/-- PaymentPurpose from the engine's event: either an invoice payment carrying
an optional preimage plus a secret, or a spontaneous payment carrying a bare
preimage. -/
inductive PaymentPurpose where
  | InvoicePayment (payment_preimage : Option Nat) (payment_secret : Nat)
  | SpontaneousPayment (preimage : Nat)
deriving DecidableEq

/-- Preimage resolved from the purpose (main.rs lines 183-188, first component
of the matched pair). -/
def purposePreimage : PaymentPurpose → Option Nat
  | .InvoicePayment pi _ => pi
  | .SpontaneousPayment pre => some pre

/-- Secret resolved from the purpose (main.rs lines 183-188, second component
of the matched pair). -/
def purposeSecret : PaymentPurpose → Option Nat
  | .InvoicePayment _ ps => some ps
  | .SpontaneousPayment _ => none

/-- Handler of `Event::PaymentReceived` (main.rs lines 181-218). `claim_funds`
stands for `channel_manager.claim_funds`, the external engine call, supplied as
an oracle from preimage to success. Returns `none` when the handler would hit
`payment_preimage.unwrap()` with no preimage (the process aborts); otherwise
returns the inbound map after the upsert keyed by `payment_hash`. -/
def handlePaymentReceived (claim_funds : Nat → Bool) (inbound : PaymentMap)
    (payment_hash : PaymentHash) (purpose : PaymentPurpose) (amt : Nat) :
    Option PaymentMap :=
  match purposePreimage purpose with
  | none => none
  | some pre =>
      let status := if claim_funds pre then HTLCStatus.Succeeded else HTLCStatus.Failed
      if containsKey inbound payment_hash then
        some (updateExisting inbound payment_hash (fun p =>
          { p with status := status, preimage := some pre,
                   secret := purposeSecret purpose }))
      else
        some (inbound ++ [(payment_hash,
          { preimage := some pre, secret := purposeSecret purpose,
            status := status, amt_msat := some amt })])

/-! ### PaymentFailed (main.rs lines 294-318) -/

/-- Handler of `Event::PaymentFailed`: remove the hash from the pending map if
it is present (main.rs lines 309-317). -/
def handlePaymentFailed (pending : PaymentMap) (payment_hash : PaymentHash) :
    PaymentMap :=
  if containsKey pending payment_hash then eraseKey pending payment_hash
  else pending

/-! ### PaymentPathFailed (main.rs lines 249-293) -/

/-- RouteHop with the two fields the handler reads. -/
structure RouteHop where
  pubkey : Nat
  short_channel_id : Nat
deriving DecidableEq

/-- Attempt row inserted into the sqlite `attempt` table (cli::Attempt,
main.rs lines 270-291). -/
structure Attempt where
  target_pubkey : Nat
  guess_pubkey : Nat
  channel_id : Nat
  result : String
deriving DecidableEq

/-- Classification of the onion error code (main.rs lines 260-266). -/
def classifyError (code : Nat) : String :=
  if code = 0x400f then "incorrect_or_unknown_payment_details"
  else if code = 0x100c then "fee_insufficient"
  else if code = 0xc005 then "invalid_onion_hmac"
  else if code = 0x400a then "unknown_next_peer"
  else "unknown"

/-- Handler of `Event::PaymentPathFailed` (main.rs lines 249-293). The result
is `none` when the handler would abort on `path.split_last().unwrap()` with an
empty path, and otherwise `some` of the list of attempt rows inserted into the
database: `path.getLast?` is `split_last`'s last hop, `path.dropLast` is the
remaining prefix, whose emptiness is the `path.len() < 1` early return and
whose last element is `path.last().unwrap()`. -/
def handlePaymentPathFailed (path : List RouteHop) (error_code : Option Nat) :
    Option (List Attempt) :=
  match path.getLast? with
  | none => none
  | some last_hop =>
      match path.dropLast.getLast? with
      | none => some []
      | some prior_hop =>
          match error_code with
          | none => some []
          | some code =>
              some [{ target_pubkey := prior_hop.pubkey,
                      guess_pubkey := last_hop.pubkey,
                      channel_id := last_hop.short_channel_id,
                      result := classifyError code }]

/-! ### FundingGenerationReady (main.rs lines 138-180) -/

/-- Backend calls the `FundingGenerationReady` handler can issue, recorded as a
trace. `createRawTransaction` carries its output list as (script, satoshi
value) pairs; `fundingTransactionGenerated` is the hand-back of the signed
transaction to the engine. `broadcastTransaction` never occurs in this
handler (it is issued only by the `SpendableOutputs` handler) but is part of
the call alphabet so its absence is expressible. -/
inductive ChainCall where
  | createRawTransaction (outputs : List (Nat × Nat))
  | fundRawTransaction
  | signRawTransactionWithWallet
  | fundingTransactionGenerated (channel_id : Nat)
  | broadcastTransaction
deriving DecidableEq

/-- Handler of `Event::FundingGenerationReady` (main.rs lines 138-180),
modelled as the trace of backend calls it issues, paired with a flag that is
`true` exactly when the handler aborts on `assert_eq!(signed_tx.complete,
true)` because the wallet returned an incomplete signature set
(`sign_complete = false`). The engine's possible rejection of the hand-back is
only logged by the handler and changes no call. -/
def handleFundingGenerationReady (temporary_channel_id : Nat)
    (channel_value_satoshis : Nat) (output_script : Nat) (sign_complete : Bool) :
    List ChainCall × Bool :=
  if sign_complete then
    ([ChainCall.createRawTransaction [(output_script, channel_value_satoshis)],
      ChainCall.fundRawTransaction,
      ChainCall.signRawTransactionWithWallet,
      ChainCall.fundingTransactionGenerated temporary_channel_id], false)
  else
    ([ChainCall.createRawTransaction [(output_script, channel_value_satoshis)],
      ChainCall.fundRawTransaction,
      ChainCall.signRawTransactionWithWallet], true)

/-- Discriminator for raw-transaction creation calls. -/
def isCreateCall : ChainCall → Bool
  | .createRawTransaction _ => true
  | _ => false

/-- Discriminator for funding calls. -/
def isFundCall : ChainCall → Bool
  | .fundRawTransaction => true
  | _ => false

/-- Discriminator for signing calls. -/
def isSignCall : ChainCall → Bool
  | .signRawTransactionWithWallet => true
  | _ => false

/-- Discriminator for hand-back calls. -/
def isHandBackCall : ChainCall → Bool
  | .fundingTransactionGenerated _ => true
  | _ => false

/-- Discriminator for broadcast calls. -/
def isBroadcastCall : ChainCall → Bool
  | .broadcastTransaction => true
  | _ => false

/-! ### Startup replay of channel-monitor updates (main.rs lines 481-514) -/

/-- Persisted channel-monitor update record: `update_id` is the monotone
sequence number, `payload` the opaque update body. -/
structure MonitorUpdate where
  update_id : Nat
  payload : Nat
deriving DecidableEq

/-- Channel-monitor state relevant to replay: the latest applied update id and
the list of payloads applied so far, in application order (standing for the
monitor's channel state). -/
structure ChannelMonitor where
  latest_update_id : Nat
  applied : List Nat
deriving DecidableEq

/-- Modelled from the spec: `ChannelMonitor::update_monitor`, the external
channel-state engine's update application (it lives in the `lightning` crate,
not under src/; main.rs line 498 only calls it and aborts startup on its
error). Per the spec's update-log invariant (§3: for a given channel the
sequence numbers form a strictly increasing sequence with no gaps; §4.3 step 2:
fail fatally on any gap, duplicate, or structurally invalid record), an update
is accepted exactly when its `update_id` is one past the monitor's latest
applied id, and otherwise an error is reported. -/
def update_monitor (m : ChannelMonitor) (u : MonitorUpdate) :
    Except String ChannelMonitor :=
  if u.update_id = m.latest_update_id + 1 then
    Except.ok { latest_update_id := u.update_id, applied := m.applied ++ [u.payload] }
  else
    Except.error "update applied out of order"

/-- Comparison used by the replay loop's sort
(`sort_by(|a, b| a.update_id.cmp(&b.update_id))`, main.rs line 491). -/
def updLE (a b : MonitorUpdate) : Prop := a.update_id ≤ b.update_id

/-- Strict version of `updLE`, expressing the data model's strictly increasing
sequence-number invariant. -/
def updLT (a b : MonitorUpdate) : Prop := a.update_id < b.update_id

instance : DecidableRel updLE := fun a b => Nat.decLe a.update_id b.update_id

instance : DecidableRel updLT := fun a b => Nat.decLt a.update_id b.update_id

instance : IsTotal MonitorUpdate updLE :=
  ⟨fun a b => Nat.le_total a.update_id b.update_id⟩

instance : IsTrans MonitorUpdate updLE :=
  ⟨fun _ _ _ hab hbc => Nat.le_trans hab hbc⟩

/-- Inner loop of the replay (main.rs lines 492-510): apply each update in list
order via `update_monitor`; the first error makes `start_ldk` return, aborting
startup, modelled as `none`. -/
def applyAll : ChannelMonitor → List MonitorUpdate → Option ChannelMonitor
  | m, [] => some m
  | m, u :: rest =>
      match update_monitor m u with
      | Except.ok m2 => applyAll m2 rest
      | Except.error _ => none

/-- Per-channel replay body (main.rs lines 487-510): sort the channel's stored
update records by `update_id`, then apply them in order. -/
def replayChannel (m : ChannelMonitor) (updates : List MonitorUpdate) :
    Option ChannelMonitor :=
  applyAll m (List.insertionSort updLE updates)

/-- Sequence numbers of a channel's stored updates in the order the replay loop
applies them (after the sort). -/
def replaySortedIds (updates : List MonitorUpdate) : List Nat :=
  (List.insertionSort updLE updates).map MonitorUpdate.update_id

/-! ### Helper lemmas about the association-list map operations -/

theorem mapLookup_eraseKey_self (m : PaymentMap) (h : PaymentHash) :
    mapLookup (eraseKey m h) h = none := by
  induction m with
  | nil => rfl
  | cons p rest ih =>
      obtain ⟨k, v⟩ := p
      by_cases hk : k = h
      · simp [eraseKey, hk, ih]
      · simp [eraseKey, hk, mapLookup, ih]

theorem containsKey_eraseKey_self (m : PaymentMap) (h : PaymentHash) :
    containsKey (eraseKey m h) h = false := by
  induction m with
  | nil => rfl
  | cons p rest ih =>
      obtain ⟨k, v⟩ := p
      by_cases hk : k = h
      · simp [eraseKey, hk, ih]
      · simp [eraseKey, hk, containsKey, ih]

theorem mapLookup_eraseKey_ne (m : PaymentMap) (h h2 : PaymentHash) (hne : h2 ≠ h) :
    mapLookup (eraseKey m h) h2 = mapLookup m h2 := by
  induction m with
  | nil => rfl
  | cons p rest ih =>
      obtain ⟨k, v⟩ := p
      by_cases hk : k = h
      · subst hk
        have hk2 : k ≠ h2 := fun hh => hne hh.symm
        simp [eraseKey, mapLookup, hk2, ih]
      · by_cases hk2 : k = h2
        · subst hk2
          simp [eraseKey, mapLookup, hk, ih]
        · simp [eraseKey, mapLookup, hk, hk2, ih]

theorem containsKey_false_lookup (m : PaymentMap) (h : PaymentHash)
    (hc : containsKey m h = false) : mapLookup m h = none := by
  induction m with
  | nil => rfl
  | cons p rest ih =>
      obtain ⟨k, v⟩ := p
      by_cases hk : k = h
      · simp [containsKey, hk] at hc
      · simp [mapLookup, hk]
        exact ih (by simpa [containsKey, hk] using hc)

theorem containsKey_lookup_isSome (m : PaymentMap) (h : PaymentHash)
    (hc : containsKey m h = true) : ∃ old, mapLookup m h = some old := by
  induction m with
  | nil => simp [containsKey] at hc
  | cons p rest ih =>
      obtain ⟨k, v⟩ := p
      by_cases hk : k = h
      · exact ⟨v, by simp [mapLookup, hk]⟩
      · obtain ⟨old, hold⟩ := ih (by simpa [containsKey, hk] using hc)
        exact ⟨old, by simp [mapLookup, hk, hold]⟩

theorem mapLookup_updateExisting_self (m : PaymentMap) (h : PaymentHash)
    (f : PaymentInfo → PaymentInfo) :
    mapLookup (updateExisting m h f) h = (mapLookup m h).map f := by
  induction m with
  | nil => rfl
  | cons p rest ih =>
      obtain ⟨k, v⟩ := p
      by_cases hk : k = h <;> simp [updateExisting, mapLookup, hk, ih]

theorem mapLookup_updateExisting_ne (m : PaymentMap) (h h2 : PaymentHash)
    (f : PaymentInfo → PaymentInfo) (hne : h2 ≠ h) :
    mapLookup (updateExisting m h f) h2 = mapLookup m h2 := by
  induction m with
  | nil => rfl
  | cons p rest ih =>
      obtain ⟨k, v⟩ := p
      by_cases hk : k = h
      · subst hk
        have hk2 : k ≠ h2 := fun hh => hne hh.symm
        simp [updateExisting, mapLookup, hk2, ih]
      · by_cases hk2 : k = h2
        · subst hk2
          simp [updateExisting, mapLookup, hk, ih]
        · simp [updateExisting, mapLookup, hk, hk2, ih]

theorem mapLookup_append_self (m : PaymentMap) (h : PaymentHash) (r : PaymentInfo)
    (hc : containsKey m h = false) : mapLookup (m ++ [(h, r)]) h = some r := by
  induction m with
  | nil => simp [mapLookup]
  | cons p rest ih =>
      obtain ⟨k, v⟩ := p
      by_cases hk : k = h
      · simp [containsKey, hk] at hc
      · simp [mapLookup, hk]
        exact ih (by simpa [containsKey, hk] using hc)

theorem mapLookup_append_ne (m : PaymentMap) (h h2 : PaymentHash) (r : PaymentInfo)
    (hne : h2 ≠ h) : mapLookup (m ++ [(h, r)]) h2 = mapLookup m h2 := by
  induction m with
  | nil =>
      have hk2 : h ≠ h2 := fun hh => hne hh.symm
      simp [mapLookup, hk2]
  | cons p rest ih =>
      obtain ⟨k, v⟩ := p
      by_cases hk2 : k = h2 <;> simp [mapLookup, hk2, ih]

/-! ### Helper lemmas about replay -/

theorem applyAll_some_ids : ∀ (us : List MonitorUpdate) (m m2 : ChannelMonitor),
    applyAll m us = some m2 →
    us.map MonitorUpdate.update_id = List.range' (m.latest_update_id + 1) us.length := by
  intro us
  induction us with
  | nil => intro m m2 _; rfl
  | cons u rest ih =>
      intro m m2 h
      by_cases hu : u.update_id = m.latest_update_id + 1
      · have h' : applyAll
            { latest_update_id := u.update_id, applied := m.applied ++ [u.payload] }
            rest = some m2 := by
          simpa [applyAll, update_monitor, hu] using h
        have hrest := ih _ m2 h'
        simp only [List.map_cons, List.length_cons, List.range'_succ]
        exact congrArg₂ (· :: ·) hu (by simpa [hu] using hrest)
      · simp [applyAll, update_monitor, hu] at h

theorem sorted_perm_unique_aux : ∀ (l2 l1 : List MonitorUpdate), l1.Perm l2 →
    List.Sorted updLE l1 → List.Sorted updLT l2 → l1 = l2 := by
  intro l2
  induction l2 with
  | nil => intro l1 hp _ _; exact hp.eq_nil
  | cons b t2 ih =>
      intro l1 hp h1 h2
      cases l1 with
      | nil => exact absurd hp.symm.eq_nil (by simp)
      | cons a t1 =>
          have hab : a = b := by
            have hamem : a ∈ b :: t2 := hp.subset (List.mem_cons_self a t1)
            rcases List.mem_cons.mp hamem with h | h
            · exact h
            · exfalso
              have hba : updLT b a := List.rel_of_sorted_cons h2 a h
              have hbmem : b ∈ a :: t1 := hp.symm.subset (List.mem_cons_self b t2)
              rcases List.mem_cons.mp hbmem with h' | h'
              · subst h'; exact absurd hba (lt_irrefl _)
              · have hle : updLE a b := List.rel_of_sorted_cons h1 b h'
                exact absurd (Nat.lt_of_lt_of_le hba hle) (lt_irrefl _)
          subst hab
          rw [ih t1 hp.cons_inv h1.of_cons h2.of_cons]

theorem insertionSort_eq_of_perm_sorted (us us' : List MonitorUpdate)
    (hperm : us'.Perm us) (hsort : List.Sorted updLT us) :
    List.insertionSort updLE us' = us :=
  sorted_perm_unique_aux us (List.insertionSort updLE us')
    ((List.perm_insertionSort updLE us').trans hperm)
    (List.sorted_insertionSort updLE us') hsort

/-! ### Claim theorems -/

/-- C1: during startup recovery, replaying the persisted update records of a
channel whose sequence numbers contain a gap (e.g. 1, 2, 4) or a duplicate —
i.e. whose sorted sequence numbers are not exactly the contiguous run
latest+1, latest+2, … — fails fatally: the per-channel replay yields `none`
(the `Err` branch at main.rs line 505 makes `start_ldk` return before the node
goes live), never silently skipping over the inconsistency. -/
theorem replay_aborts_on_gap_or_duplicate (m : ChannelMonitor)
    (updates : List MonitorUpdate)
    (h : replaySortedIds updates ≠
      List.range' (m.latest_update_id + 1) updates.length) :
    replayChannel m updates = none := by
  cases hr : replayChannel m updates with
  | none => rfl
  | some m2 =>
      exfalso
      apply h
      have hr' : applyAll m (List.insertionSort updLE updates) = some m2 := hr
      have hids := applyAll_some_ids _ m m2 hr'
      rw [replaySortedIds, hids]
      congr 1
      exact (List.perm_insertionSort updLE updates).length_eq

/-- Witness for C1: a monitor at sequence number 0 with stored updates
numbered 1, 2, 4 (a gap at 3) satisfies the hypothesis, and replay aborts. -/
theorem replay_aborts_on_gap_witness :
    replaySortedIds [⟨1, 0⟩, ⟨2, 0⟩, ⟨4, 0⟩] ≠ List.range' (0 + 1) 3 ∧
    replayChannel { latest_update_id := 0, applied := [] }
      [⟨1, 0⟩, ⟨2, 0⟩, ⟨4, 0⟩] = none :=
  ⟨by decide,
   replay_aborts_on_gap_or_duplicate { latest_update_id := 0, applied := [] }
     [⟨1, 0⟩, ⟨2, 0⟩, ⟨4, 0⟩] (by decide)⟩

/-- C2: for every channel and every permutation `us'` of the channel's
persisted update records `us` (whose sequence numbers are strictly increasing,
the data-model invariant), startup replay sorts the records by sequence number
before applying any (main.rs line 491), so the resulting state equals applying
the same updates in ascending order directly to the snapshot. -/
theorem replay_sorts_before_apply (m : ChannelMonitor)
    (us us' : List MonitorUpdate) (hperm : us'.Perm us)
    (hsort : List.Sorted updLT us) :
    replayChannel m us' = applyAll m us := by
  unfold replayChannel
  rw [insertionSort_eq_of_perm_sorted us us' hperm hsort]

/-- Witness for C2: replaying the two updates 1, 2 delivered in the order
2, 1 equals applying them in ascending order. -/
theorem replay_sorts_before_apply_witness :
    replayChannel { latest_update_id := 0, applied := [] } [⟨2, 20⟩, ⟨1, 10⟩] =
      applyAll { latest_update_id := 0, applied := [] } [⟨1, 10⟩, ⟨2, 20⟩] :=
  replay_sorts_before_apply { latest_update_id := 0, applied := [] }
    [⟨1, 10⟩, ⟨2, 20⟩] [⟨2, 20⟩, ⟨1, 10⟩]
    (List.Perm.swap (⟨1, 10⟩ : MonitorUpdate) ⟨2, 20⟩ []) (by decide)

/-- C4: the routing-failure classification maps 0x400f to
incorrect_or_unknown_payment_details, 0x100c to fee_insufficient, 0xc005 to
invalid_onion_hmac, 0x400a to unknown_next_peer, and every other code to
unknown (main.rs lines 260-266). -/
theorem classifyError_table :
    classifyError 0x400f = "incorrect_or_unknown_payment_details" ∧
    classifyError 0x100c = "fee_insufficient" ∧
    classifyError 0xc005 = "invalid_onion_hmac" ∧
    classifyError 0x400a = "unknown_next_peer" ∧
    ∀ code : Nat, code ≠ 0x400f → code ≠ 0x100c → code ≠ 0xc005 →
      code ≠ 0x400a → classifyError code = "unknown" := by
  refine ⟨rfl, rfl, rfl, rfl, ?_⟩
  intro code h1 h2 h3 h4
  simp [classifyError, h1, h2, h3, h4]

/-- Witness for C4: the unlisted code 7 classifies as unknown. -/
theorem classifyError_table_witness : classifyError 7 = "unknown" :=
  classifyError_table.2.2.2.2 7 (by decide) (by decide) (by decide) (by decide)

/-- C3: for a PaymentPathFailed event with a classified error code, a one-hop
path is ignored (no routing-attempt record), while a path of two or more hops
(here: a path with a last hop and a second-to-last hop) yields exactly one
record whose target is the second-to-last hop's public key, whose guessed
culprit is the last hop's public key, and whose channel id is the last hop's
short channel id, with the classified result string. -/
theorem paymentPathFailed_attribution :
    (∀ (hop : RouteHop) (code : Nat),
        handlePaymentPathFailed [hop] (some code) = some []) ∧
    (∀ (path : List RouteHop) (last_hop prior_hop : RouteHop) (code : Nat),
        path.getLast? = some last_hop →
        path.dropLast.getLast? = some prior_hop →
        handlePaymentPathFailed path (some code) =
          some [{ target_pubkey := prior_hop.pubkey,
                  guess_pubkey := last_hop.pubkey,
                  channel_id := last_hop.short_channel_id,
                  result := classifyError code }]) := by
  constructor
  · intro hop code; rfl
  · intro path last_hop prior_hop code h1 h2
    unfold handlePaymentPathFailed
    rw [h1, h2]

/-- Witness for C3: a two-hop path with a classified code writes the single
expected record. -/
theorem paymentPathFailed_attribution_witness :
    handlePaymentPathFailed [⟨1, 10⟩, ⟨2, 20⟩] (some 0x400a) =
      some [{ target_pubkey := 1, guess_pubkey := 2, channel_id := 20,
              result := classifyError 0x400a }] :=
  paymentPathFailed_attribution.2 [⟨1, 10⟩, ⟨2, 20⟩] ⟨2, 20⟩ ⟨1, 10⟩ 0x400a rfl rfl

/-- C8: handling a PaymentPathFailed event whose path is empty aborts the
process: `path.split_last().unwrap()` (main.rs line 251) runs before the
hop-count guard, so the empty-path case is a crash (`none`), not the
"ignored" behaviour (`some []`). -/
theorem paymentPathFailed_empty_path_aborts :
    ∀ error_code : Option Nat, handlePaymentPathFailed [] error_code = none :=
  fun _ => rfl

/-- C9: a PaymentPathFailed event whose error code is absent appends no
routing-attempt record, even on paths of two or more hops; on any non-empty
path the event is silently dropped (the handler returns with no record and no
crash). -/
theorem paymentPathFailed_no_code_dropped (path : List RouteHop) :
    (handlePaymentPathFailed path none).getD [] = [] ∧
    (path ≠ [] → handlePaymentPathFailed path none = some []) := by
  constructor
  · unfold handlePaymentPathFailed
    split
    · rfl
    · split <;> rfl
  · intro hne
    unfold handlePaymentPathFailed
    split
    next h1 => exact absurd (List.getLast?_eq_none_iff.mp h1) hne
    next => split <;> rfl

/-- Witness for C9: a two-hop path with no error code is dropped without a
record. -/
theorem paymentPathFailed_no_code_dropped_witness :
    handlePaymentPathFailed [⟨1, 10⟩, ⟨2, 20⟩] none = some [] :=
  (paymentPathFailed_no_code_dropped [⟨1, 10⟩, ⟨2, 20⟩]).2 (by decide)

/-- C10: handling a PaymentReceived event whose purpose is an invoice payment
carrying no preimage aborts the process: `payment_preimage.unwrap()`
(main.rs line 189) runs before `claim_funds`, so the event is not handled by
marking the record Failed. -/
theorem paymentReceived_missing_preimage_aborts :
    ∀ (claim_funds : Nat → Bool) (inbound : PaymentMap)
      (payment_hash : PaymentHash) (payment_secret amt : Nat),
      handlePaymentReceived claim_funds inbound payment_hash
        (PaymentPurpose.InvoicePayment none payment_secret) amt = none :=
  fun _ _ _ _ _ => rfl

/-- C7: the FundingGenerationReady handler, when the wallet returns a complete
signature set, performs exactly one raw-transaction creation with a single
output paying exactly the channel value to the given output script, one
funding call, one signing call, and one hand-back of the signed transaction to
the engine — in that order — and makes no broadcast call and does not abort. -/
theorem fundingReady_single_sequence_no_broadcast
    (temporary_channel_id channel_value_satoshis output_script : Nat) :
    (handleFundingGenerationReady temporary_channel_id channel_value_satoshis
        output_script true).1 =
      [ChainCall.createRawTransaction [(output_script, channel_value_satoshis)],
       ChainCall.fundRawTransaction,
       ChainCall.signRawTransactionWithWallet,
       ChainCall.fundingTransactionGenerated temporary_channel_id] ∧
    (handleFundingGenerationReady temporary_channel_id channel_value_satoshis
        output_script true).1.countP isCreateCall = 1 ∧
    (handleFundingGenerationReady temporary_channel_id channel_value_satoshis
        output_script true).1.countP isFundCall = 1 ∧
    (handleFundingGenerationReady temporary_channel_id channel_value_satoshis
        output_script true).1.countP isSignCall = 1 ∧
    (handleFundingGenerationReady temporary_channel_id channel_value_satoshis
        output_script true).1.countP isHandBackCall = 1 ∧
    (handleFundingGenerationReady temporary_channel_id channel_value_satoshis
        output_script true).1.countP isBroadcastCall = 0 ∧
    (handleFundingGenerationReady temporary_channel_id channel_value_satoshis
        output_script true).2 = false :=
  ⟨rfl, rfl, rfl, rfl, rfl, rfl, rfl⟩

/-- Counterexample to C5 as stated: with an inbound record already present
under hash 7 (amount unknown), a successful claim of a spontaneous payment of
5 msat updates the record in place but leaves its stored amount `none` — the
observed amount 5 is not recorded, because the `Entry::Occupied` branch
(main.rs lines 203-208) writes only status, preimage and secret. -/
theorem paymentReceived_amount_not_updated :
    handlePaymentReceived (fun _ => true)
        [(7, { preimage := none, secret := none, status := HTLCStatus.Pending,
               amt_msat := none })] 7 (PaymentPurpose.SpontaneousPayment 3) 5 =
      some [(7, { preimage := some 3, secret := none,
                  status := HTLCStatus.Succeeded, amt_msat := none })] ∧
    (none : Option Nat) ≠ some 5 :=
  ⟨rfl, by decide⟩

/-- C5 (amended): for every PaymentReceived event whose purpose carries a
preimage, the inbound map is upserted keyed by the payment hash — inserted if
absent, updated in place if present; the stored status is Succeeded when the
claim-funds call succeeds and Failed otherwise; the observed amount is
recorded only when a new record is inserted, an in-place update leaving the
previously stored amount unchanged; the stored preimage is the resolved
preimage and the stored secret is the purpose's secret (None for a
spontaneous payment); and every other key is untouched. -/
theorem paymentReceived_upsert (claim_funds : Nat → Bool) (inbound : PaymentMap)
    (payment_hash : PaymentHash) (purpose : PaymentPurpose) (amt pre : Nat)
    (hpre : purposePreimage purpose = some pre) :
    ∃ m2, handlePaymentReceived claim_funds inbound payment_hash purpose amt =
        some m2 ∧
      mapLookup m2 payment_hash = some
        { preimage := some pre
          secret := purposeSecret purpose
          status := if claim_funds pre then HTLCStatus.Succeeded
                    else HTLCStatus.Failed
          amt_msat := (mapLookup inbound payment_hash).elim (some amt)
                        PaymentInfo.amt_msat } ∧
      ∀ h2, h2 ≠ payment_hash → mapLookup m2 h2 = mapLookup inbound h2 := by
  cases hc : containsKey inbound payment_hash with
  | true =>
      obtain ⟨old, hold⟩ := containsKey_lookup_isSome _ _ hc
      refine ⟨updateExisting inbound payment_hash (fun p =>
        { p with
          status := if claim_funds pre then HTLCStatus.Succeeded
                    else HTLCStatus.Failed,
          preimage := some pre, secret := purposeSecret purpose }),
        by simp [handlePaymentReceived, hpre, hc], ?_, ?_⟩
      · rw [mapLookup_updateExisting_self, hold]
        rfl
      · intro h2 hne
        exact mapLookup_updateExisting_ne _ _ _ _ hne
  | false =>
      have hnone : mapLookup inbound payment_hash = none :=
        containsKey_false_lookup _ _ hc
      refine ⟨inbound ++ [(payment_hash,
        { preimage := some pre, secret := purposeSecret purpose,
          status := if claim_funds pre then HTLCStatus.Succeeded
                    else HTLCStatus.Failed,
          amt_msat := some amt })],
        by simp [handlePaymentReceived, hpre, hc], ?_, ?_⟩
      · rw [mapLookup_append_self _ _ _ hc, hnone]
        rfl
      · intro h2 hne
        exact mapLookup_append_ne _ _ _ _ hne

/-- Witness for C5 (amended): handling a spontaneous payment under a fresh
hash goes through (its hypothesis is satisfied with preimage 3). -/
theorem paymentReceived_upsert_witness :
    (handlePaymentReceived (fun _ => true) [] 7
        (PaymentPurpose.SpontaneousPayment 3) 5).isSome = true := by
  obtain ⟨m2, h1, -, -⟩ :=
    paymentReceived_upsert (fun _ => true) [] 7
      (PaymentPurpose.SpontaneousPayment 3) 5 3 rfl
  rw [h1]
  rfl

/-- C6: processing a PaymentFailed event removes the payment hash from the
pending map if present, leaves every other key untouched, and is idempotent —
a second PaymentFailed for the same hash is a no-op, not an error. -/
theorem paymentFailed_remove_idempotent (pending : PaymentMap)
    (payment_hash : PaymentHash) :
    mapLookup (handlePaymentFailed pending payment_hash) payment_hash = none ∧
    handlePaymentFailed (handlePaymentFailed pending payment_hash) payment_hash =
      handlePaymentFailed pending payment_hash ∧
    ∀ h2, h2 ≠ payment_hash →
      mapLookup (handlePaymentFailed pending payment_hash) h2 =
        mapLookup pending h2 := by
  cases hc : containsKey pending payment_hash with
  | true =>
      refine ⟨?_, ?_, ?_⟩
      · simp [handlePaymentFailed, hc, mapLookup_eraseKey_self]
      · simp [handlePaymentFailed, hc, containsKey_eraseKey_self]
      · intro h2 hne
        simp [handlePaymentFailed, hc, mapLookup_eraseKey_ne _ _ _ hne]
  | false =>
      refine ⟨?_, ?_, ?_⟩
      · simp [handlePaymentFailed, hc, containsKey_false_lookup _ _ hc]
      · simp [handlePaymentFailed, hc]
      · intro h2 hne
        simp [handlePaymentFailed, hc]

/-- Witness for C6: removing hash 7 from a one-entry pending map empties it,
a second removal is a no-op, and the unrelated key 5 is untouched. -/
theorem paymentFailed_remove_idempotent_witness :
    mapLookup
      (handlePaymentFailed
        [(7, { preimage := none, secret := none, status := HTLCStatus.Pending,
               amt_msat := none })] 7) 7 = none ∧
    handlePaymentFailed
        (handlePaymentFailed
          [(7, { preimage := none, secret := none, status := HTLCStatus.Pending,
                 amt_msat := none })] 7) 7 =
      handlePaymentFailed
        [(7, { preimage := none, secret := none, status := HTLCStatus.Pending,
               amt_msat := none })] 7 ∧
    mapLookup
        (handlePaymentFailed
          [(7, { preimage := none, secret := none, status := HTLCStatus.Pending,
                 amt_msat := none })] 7) 5 =
      mapLookup
        [(7, { preimage := none, secret := none, status := HTLCStatus.Pending,
               amt_msat := none })] 5 :=
  ⟨(paymentFailed_remove_idempotent
      [(7, { preimage := none, secret := none, status := HTLCStatus.Pending,
             amt_msat := none })] 7).1,
   (paymentFailed_remove_idempotent
      [(7, { preimage := none, secret := none, status := HTLCStatus.Pending,
             amt_msat := none })] 7).2.1,
   (paymentFailed_remove_idempotent
      [(7, { preimage := none, secret := none, status := HTLCStatus.Pending,
             amt_msat := none })] 7).2.2 5 (by decide)⟩

end HiddenLightning
